import Mathlib

/-!
Shallow embedding of the chess-engine WebAssembly binding layer of this
repository.  The embedded code is the buffer-marshalling wrapper in
`src/unnamed/part_000` (class `ChessEngineWASM`, the refinement of
`src/chess/web/chess_engine_wrapper.js`): lifecycle flags `isReady` and
`isInitialized`, malloc/free scratch buffers around the native calls that
fill a string buffer, status decoding, whitespace splitting of the legal
move list, and the `analyzePosition` orchestrator with its surrounding
try/catch.

The native engine itself is an external collaborator reached through the
foreign-function contract; its responses (status codes, the bytes it
writes into a scratch buffer, boolean codes, the evaluation score) are
modelled by an oracle parameter `NativeOracle`.  Environment conditions
that make the wrapper itself throw are also oracle fields: whether
`Module._malloc` returns a region for a given call, and whether a UTF-8
decoding helper is available (`_decodeCString` throws otherwise).

A JavaScript `throw` is modelled by `Except.error`; every operation also
returns the ordered list of native-boundary events it performed
(allocation of a scratch region, a foreign call, release of the region),
so that claims about "no native call is made" and "every region acquired
is released" are statable.
-/

namespace ChessEngineWASM

/-- Lifecycle flags of the wrapper object.  `isReady` is set by a
successful `loadModule`, `isInitialized` by a successful `init`.
`wrappersSet` records that `setupFunctionWrappers` completed (all the
`cwrap` fields, `_malloc`, `_free` and `_decodeCString` are non-null);
`moduleSet` records that the `this.module` field was assigned. -/
structure Engine where
  isReady : Bool
  isInitialized : Bool
  wrappersSet : Bool
  moduleSet : Bool
  deriving DecidableEq, Repr

/-- The spec's `EngineState` enumeration. -/
inductive EngineState where
  | unloaded
  | loadedNotInit
  | initialized
  deriving DecidableEq, Repr

/-- The abstract lifecycle state determined by the wrapper's flags. -/
def Engine.state (e : Engine) : EngineState :=
  if !e.isReady then .unloaded
  else if e.isInitialized then .initialized
  else .loadedNotInit

/-- Lifecycle well-formedness: the wrapper can only be initialized after a
successful load, which set `isReady` and completed the wrapper setup.
Every state reachable through the public API satisfies this. -/
def Engine.wf (e : Engine) : Prop :=
  e.isInitialized = true → e.isReady = true ∧ e.wrappersSet = true

instance (e : Engine) : Decidable e.wf := by
  unfold Engine.wf; infer_instance

/-- Errors thrown by the wrapper (`throw new Error(...)` sites in the
source). -/
inductive EngErr where
  | notLoaded
  | notInitialized
  | allocFailed (what : String)
  | decodeUnavailable
  deriving DecidableEq, Repr

/-- The `message` property of the thrown `Error`, verbatim from the
source. -/
def EngErr.message : EngErr → String
  | .notLoaded => "WASM module not loaded yet"
  | .notInitialized => "Engine not initialized"
  | .allocFailed what => "Failed to allocate memory for " ++ what
  | .decodeUnavailable => "UTF-8 decoding helpers are unavailable"

/-- Events at the native boundary, in the order the wrapper performs
them: a successful `_malloc` of a scratch region of the given byte
capacity, a `_malloc` that returned a null pointer, a foreign call into
the engine by symbol name, and a `_free` of the scratch region. -/
inductive Ev where
  | alloc (capacity : Nat)
  | mallocFail
  | call (symbol : String)
  | release
  deriving DecidableEq, Repr

/-- Responses of the native engine and of the module environment for one
call-surface invocation.  Functions of the argument where the native
entry point takes one. -/
structure NativeOracle where
  /-- whether `_malloc(32)` in `getBestMove` returns a region -/
  mallocBest : Bool
  /-- whether `_malloc(4096)` in `getLegalMoves` returns a region -/
  mallocLegal : Bool
  /-- whether `_malloc(128)` in `getCurrentFen` returns a region -/
  mallocFen : Bool
  /-- whether a UTF-8 decoding helper is available to `_decodeCString` -/
  decodeOk : Bool
  /-- status returned by `chess_init` -/
  initStatus : Int
  /-- status returned by `chess_set_position(fen)` -/
  setStatus : String → Int
  /-- status returned by `chess_get_best_move(buf, 32, depth)` -/
  bestStatus : Int → Int
  /-- string the engine wrote into the best-move buffer -/
  bestWritten : Int → String
  /-- status returned by `chess_make_move(move)` -/
  makeStatus : String → Int
  /-- status returned by `chess_undo_move()` -/
  undoStatus : Int
  /-- count returned by `chess_get_legal_moves(buf, 4096)` -/
  legalCount : Int
  /-- string the engine wrote into the legal-moves buffer -/
  legalWritten : String
  /-- boolean code returned by `chess_is_checkmate()` -/
  checkmateCode : Int
  /-- boolean code returned by `chess_is_stalemate()` -/
  stalemateCode : Int
  /-- boolean code returned by `chess_is_in_check()` -/
  inCheckCode : Int
  /-- raw integer returned by `chess_evaluate_position()` -/
  evalScore : Int
  /-- status returned by `chess_get_fen(buf, 128)` -/
  fenStatus : Int
  /-- string the engine wrote into the FEN buffer -/
  fenWritten : String

/-- Embeds `setPosition(fen)`: guard, one foreign call, `=== 0` mapped to a
boolean. -/
def setPosition (e : Engine) (o : NativeOracle) (fen : String) :
    Except EngErr Bool × List Ev :=
  if !e.isInitialized then (.error .notInitialized, [])
  else (.ok (o.setStatus fen == 0), [.call "chess_set_position"])

/-- Embeds `getBestMove(depth)`: guard, `_malloc(32)` (throw on null), foreign
call, status check, decode, sentinel and emptiness check; `_free` runs in
a `finally` on every exit path after a successful allocation. -/
def getBestMove (e : Engine) (o : NativeOracle) (depth : Int) :
    Except EngErr (Option String) × List Ev :=
  if !e.isInitialized then (.error .notInitialized, [])
  else if !o.mallocBest then (.error (.allocFailed "best move buffer"), [.mallocFail])
  else
    let evs := [Ev.alloc 32, Ev.call "chess_get_best_move", Ev.release]
    if o.bestStatus depth != 0 then (.ok none, evs)
    else if !o.decodeOk then (.error .decodeUnavailable, evs)
    else
      let move := o.bestWritten depth
      if move != "" && move != "0000" then (.ok (some move), evs)
      else (.ok none, evs)

/-- Embeds `makeMove(move)`: guard, one foreign call, `=== 0`. -/
def makeMove (e : Engine) (o : NativeOracle) (move : String) :
    Except EngErr Bool × List Ev :=
  if !e.isInitialized then (.error .notInitialized, [])
  else (.ok (o.makeStatus move == 0), [.call "chess_make_move"])

/-- Embeds `undoMove()`: guard, one foreign call, `=== 0`. -/
def undoMove (e : Engine) (o : NativeOracle) :
    Except EngErr Bool × List Ev :=
  if !e.isInitialized then (.error .notInitialized, [])
  else (.ok (o.undoStatus == 0), [.call "chess_undo_move"])

/-- Embeds the JavaScript `String.prototype.trim` for the engine's
ASCII payloads: drop leading and trailing whitespace characters. -/
def trimString (s : String) : String :=
  ⟨((s.toList.dropWhile Char.isWhitespace).reverse.dropWhile
      Char.isWhitespace).reverse⟩

/-- The split of the source, `movesStr.split(/\s+/).filter(Boolean)` on
an already trimmed string: split at whitespace and drop the empty tokens
that runs of separators produce. -/
def splitMoves (s : String) : List String :=
  ((s.toList.splitOnP fun c => c.isWhitespace).map
      fun cs => (⟨cs⟩ : String)).filter fun t => t != ""

/-- Embeds `getLegalMoves()`: guard, `_malloc(4096)` (throw on null), foreign
call, `count < 0` check, decode and trim, blank check, whitespace split
with empty tokens filtered; `_free` in a `finally`. -/
def getLegalMoves (e : Engine) (o : NativeOracle) :
    Except EngErr (List String) × List Ev :=
  if !e.isInitialized then (.error .notInitialized, [])
  else if !o.mallocLegal then (.error (.allocFailed "legal moves buffer"), [.mallocFail])
  else
    let evs := [Ev.alloc 4096, Ev.call "chess_get_legal_moves", Ev.release]
    if o.legalCount < 0 then (.ok [], evs)
    else if !o.decodeOk then (.error .decodeUnavailable, evs)
    else
      let movesStr := trimString o.legalWritten
      if movesStr = "" then (.ok [], evs)
      else (.ok (splitMoves movesStr), evs)

/-- Embeds `isCheckmate()`: guard, one foreign call, `=== 1`. -/
def isCheckmate (e : Engine) (o : NativeOracle) :
    Except EngErr Bool × List Ev :=
  if !e.isInitialized then (.error .notInitialized, [])
  else (.ok (o.checkmateCode == 1), [.call "chess_is_checkmate"])

/-- Embeds `isStalemate()`: guard, one foreign call, `=== 1`. -/
def isStalemate (e : Engine) (o : NativeOracle) :
    Except EngErr Bool × List Ev :=
  if !e.isInitialized then (.error .notInitialized, [])
  else (.ok (o.stalemateCode == 1), [.call "chess_is_stalemate"])

/-- Embeds `isInCheck()`: guard, one foreign call, `=== 1`. -/
def isInCheck (e : Engine) (o : NativeOracle) :
    Except EngErr Bool × List Ev :=
  if !e.isInitialized then (.error .notInitialized, [])
  else (.ok (o.inCheckCode == 1), [.call "chess_is_in_check"])

/-- Embeds `evaluatePosition()`: guard, one foreign call, raw integer returned
with no reinterpretation. -/
def evaluatePosition (e : Engine) (o : NativeOracle) :
    Except EngErr Int × List Ev :=
  if !e.isInitialized then (.error .notInitialized, [])
  else (.ok o.evalScore, [.call "chess_evaluate_position"])

/-- Embeds `getCurrentFen()`: guard, `_malloc(128)` (throw on null), foreign
call, status check (empty string on failure), decode; `_free` in a
`finally`. -/
def getCurrentFen (e : Engine) (o : NativeOracle) :
    Except EngErr String × List Ev :=
  if !e.isInitialized then (.error .notInitialized, [])
  else if !o.mallocFen then (.error (.allocFailed "FEN buffer"), [.mallocFail])
  else
    let evs := [Ev.alloc 128, Ev.call "chess_get_fen", Ev.release]
    if o.fenStatus != 0 then (.ok "", evs)
    else if !o.decodeOk then (.error .decodeUnavailable, evs)
    else (.ok o.fenWritten, evs)

/-- Embeds `init()`: throws when the module is not loaded, otherwise one
foreign call to `chess_init`; any nonzero status returns `false` leaving
the flags untouched, status 0 sets `isInitialized`. -/
def init (e : Engine) (o : NativeOracle) :
    Except EngErr Bool × Engine × List Ev :=
  if !e.isReady then (.error .notLoaded, e, [])
  else if o.initStatus != 0 then (.ok false, e, [.call "chess_init"])
  else (.ok true, { e with isInitialized := true }, [.call "chess_init"])

/-- Embeds `cleanup()`: a no-op unless `isInitialized` holds and the
`chess_cleanup` wrapper is non-null (the source condition
`this.isInitialized && this.chess_cleanup`); otherwise one foreign call
to the void native teardown, then the flag is cleared.  The body contains
no throw site, so the function is total. -/
def cleanup (e : Engine) : Engine × List Ev :=
  if e.isInitialized && e.wrappersSet then
    ({ e with isInitialized := false }, [.call "chess_cleanup"])
  else (e, [])

/-- The stage at which `loadModule(baseUrl)` fails, when it fails; every
failure is caught by the surrounding try/catch and reported as `false`
(the binding's `LoadError` surface). -/
inductive LoadOutcome where
  | scriptFail
  | symbolMissing
  | moduleInitFail
  | wrappersFail
  | ok
  deriving DecidableEq, Repr

/-- Embeds `loadModule(baseUrl)`: loads the script (`scriptFail` = the script
tag's onerror), requires the global `ChessEngine` symbol
(`symbolMissing`), instantiates the module (`moduleInitFail` = rejected
promise, so `this.module` is not assigned), and runs
`setupFunctionWrappers` (`wrappersFail` = `_malloc`/`_free` or a decoding
helper missing, thrown after `this.module` was assigned).  On any
failure the catch returns `false` and `isReady` is never set. -/
def loadModule (e : Engine) (oc : LoadOutcome) : Bool × Engine :=
  match oc with
  | .scriptFail => (false, e)
  | .symbolMissing => (false, e)
  | .moduleInitFail => (false, e)
  | .wrappersFail => (false, { e with moduleSet := true })
  | .ok => (true, { e with moduleSet := true, wrappersSet := true, isReady := true })

/-- Sequencing of two traced fallible steps: the second runs only when
the first did not throw; traces concatenate. -/
def andThen {α β : Type} (x : Except EngErr α × List Ev)
    (f : α → Except EngErr β × List Ev) : Except EngErr β × List Ev :=
  match x with
  | (.error err, t) => (.error err, t)
  | (.ok a, t) => ((f a).1, t ++ (f a).2)

/-- The `gameState` sub-object of an analysis report. -/
structure GameState where
  isCheckmate : Bool
  isStalemate : Bool
  isInCheck : Bool
  deriving DecidableEq, Repr

/-- The object returned by `analyzePosition`, with one `Option` per
JavaScript property (`none` = property absent). -/
structure Report where
  success : Option Bool := none
  bestMove : Option (Option String) := none
  evaluation : Option Int := none
  legalMoves : Option (List String) := none
  moveCount : Option Nat := none
  gameState : Option GameState := none
  depth : Option Int := none
  fen : Option String := none
  error : Option String := none
  deriving DecidableEq, Repr

/-- The body of `analyzePosition`'s try block: set the position
(short-circuiting to the invalid-FEN report when it returns `false`),
then best move, evaluation, legal moves, the three state queries, and the
FEN re-read, assembled into the success report. -/
def analyzeRaw (e : Engine) (o : NativeOracle) (fen : String) (depth : Int) :
    Except EngErr Report × List Ev :=
  andThen (setPosition e o fen) fun ok =>
    if !ok then (.ok { error := some "Invalid FEN position" }, [])
    else
      andThen (getBestMove e o depth) fun bestMove =>
      andThen (evaluatePosition e o) fun evaluation =>
      andThen (getLegalMoves e o) fun legalMoves =>
      andThen (isCheckmate e o) fun ckm =>
      andThen (isStalemate e o) fun stm =>
      andThen (isInCheck e o) fun chk =>
      andThen (getCurrentFen e o) fun curFen =>
        (.ok { success := some true, bestMove := some bestMove,
               evaluation := some evaluation, legalMoves := some legalMoves,
               moveCount := some legalMoves.length,
               gameState := some ⟨ckm, stm, chk⟩,
               depth := some depth, fen := some curFen }, [])

/-- Embeds `analyzePosition(fen, depth)`: the try body wrapped in the catch that
turns any thrown error into `{ error: error.message }`. -/
def analyzePosition (e : Engine) (o : NativeOracle) (fen : String) (depth : Int) :
    Report × List Ev :=
  match analyzeRaw e o fen depth with
  | (.ok r, t) => (r, t)
  | (.error err, t) => ({ error := some err.message }, t)

/-- Number of scratch regions successfully allocated in a trace. -/
def allocCount (t : List Ev) : Nat :=
  (t.filter fun ev => match ev with | .alloc _ => true | _ => false).length

/-- Number of scratch regions released in a trace. -/
def releaseCount (t : List Ev) : Nat :=
  (t.filter fun ev => match ev with | .release => true | _ => false).length

/-- The three call-surface operations that use a scratch buffer. -/
inductive ScratchOp where
  | best (depth : Int)
  | legal
  | fen
  deriving DecidableEq, Repr

/-- Trace of one scratch-buffer operation (the result is irrelevant to
leak accounting). -/
def scratchEvents (e : Engine) (o : NativeOracle) : ScratchOp → List Ev
  | .best d => (getBestMove e o d).2
  | .legal => (getLegalMoves e o).2
  | .fen => (getCurrentFen e o).2

/-- Trace of a sequence of scratch-buffer operations, each step with its
own native responses. -/
def runSeq (e : Engine) : List (ScratchOp × NativeOracle) → List Ev
  | [] => []
  | (op, o) :: rest => scratchEvents e o op ++ runSeq e rest

/-- Modelled from the spec: the 4-5 character algebraic coordinate form
of a `MoveToken` ("e2e4", "e7e8q") — files a-h, ranks 1-8, optional
promotion piece.  Used only to state what "well-formed" means; the
wrapper itself never validates tokens. -/
def isMoveToken (s : String) : Bool :=
  match s.toList with
  | [a, b, c, d] =>
      ('a' ≤ a && a ≤ 'h') && ('1' ≤ b && b ≤ '8') &&
      ('a' ≤ c && c ≤ 'h') && ('1' ≤ d && d ≤ '8')
  | [a, b, c, d, p] =>
      ('a' ≤ a && a ≤ 'h') && ('1' ≤ b && b ≤ '8') &&
      ('a' ≤ c && c ≤ 'h') && ('1' ≤ d && d ≤ '8') &&
      (p = 'q' || p = 'r' || p = 'b' || p = 'n')
  | _ => false


/-! ### Concrete fixtures used to evaluate the definitions -/

/-- Engine before any `loadModule`: all flags clear. -/
def eFresh : Engine := ⟨false, false, false, false⟩

/-- Engine after a successful `loadModule`, before `init`. -/
def eLoaded : Engine := ⟨true, false, true, true⟩

/-- Engine after a successful `loadModule` and `init`. -/
def eInit : Engine := ⟨true, true, true, true⟩

/-- Benign native responses: every allocation succeeds, decoding is
available, every status is the success code 0, and the engine writes
plausible payloads. -/
def oZero : NativeOracle where
  mallocBest := true
  mallocLegal := true
  mallocFen := true
  decodeOk := true
  initStatus := 0
  setStatus := fun _ => 0
  bestStatus := fun _ => 0
  bestWritten := fun _ => "e2e4"
  makeStatus := fun _ => 0
  undoStatus := 0
  legalCount := 20
  legalWritten := "e2e4 d2d4"
  checkmateCode := 0
  stalemateCode := 0
  inCheckCode := 0
  evalScore := 25
  fenStatus := 0
  fenWritten := "rnbqkbnr/pppppppp/8/8/8/8/PPPPPPPP/RNBQKBNR w KQkq - 0 1"

/-- Native responses where the engine writes an empty best-move token
with a success status. -/
def oEmptyBest : NativeOracle := { oZero with bestWritten := fun _ => "" }

/-- Native responses where the engine writes a junk best-move token with
a success status. -/
def oJunkBest : NativeOracle := { oZero with bestWritten := fun _ => "hello" }

/-- Native responses where `chess_set_position` reports failure. -/
def oBadFen : NativeOracle := { oZero with setStatus := fun _ => 1 }

/-- Native responses where `chess_init` reports failure. -/
def oInitFail : NativeOracle := { oZero with initStatus := 5 }

/-! ### Helper lemmas -/

/-- Peeling one step off an `andThen` chain that ended without a throw. -/
theorem andThen_ok {α β : Type} {x : Except EngErr α × List Ev}
    {f : α → Except EngErr β × List Ev} {b : β}
    (h : (andThen x f).1 = .ok b) :
    ∃ a, x.1 = .ok a ∧ (f a).1 = .ok b := by
  obtain ⟨r, t⟩ := x
  cases r with
  | error err => simp [andThen] at h
  | ok a => exact ⟨a, rfl, by simpa [andThen] using h⟩

/-- Every report the try body of `analyzePosition` produces without
throwing is either the invalid-FEN report or the full success report. -/
theorem analyzeRaw_ok_shape {e : Engine} {o : NativeOracle} {fen : String}
    {d : Int} {rep : Report} (h : (analyzeRaw e o fen d).1 = .ok rep) :
    rep = { error := some "Invalid FEN position" } ∨
    ∃ bm ev lm gs cf, rep =
      { success := some true, bestMove := some bm, evaluation := some ev,
        legalMoves := some lm, moveCount := some lm.length,
        gameState := some gs, depth := some d, fen := some cf } := by
  unfold analyzeRaw at h
  obtain ⟨ok1, -, h⟩ := andThen_ok h
  cases ok1 with
  | false =>
      left
      simp only [Bool.not_false, if_true] at h
      exact (Except.ok.inj h).symm
  | true =>
      right
      simp only [Bool.not_true, if_false] at h
      obtain ⟨bm, -, h⟩ := andThen_ok h
      obtain ⟨ev, -, h⟩ := andThen_ok h
      obtain ⟨lm, -, h⟩ := andThen_ok h
      obtain ⟨ck, -, h⟩ := andThen_ok h
      obtain ⟨st, -, h⟩ := andThen_ok h
      obtain ⟨ch, -, h⟩ := andThen_ok h
      obtain ⟨cf, -, h⟩ := andThen_ok h
      exact ⟨bm, ev, lm, ⟨ck, st, ch⟩, cf, (Except.ok.inj h).symm⟩

/-- Allocation counting distributes over trace concatenation. -/
theorem allocCount_append (a b : List Ev) :
    allocCount (a ++ b) = allocCount a + allocCount b := by
  simp [allocCount, List.filter_append]

/-- Release counting distributes over trace concatenation. -/
theorem releaseCount_append (a b : List Ev) :
    releaseCount (a ++ b) = releaseCount a + releaseCount b := by
  simp [releaseCount, List.filter_append]

/-- Each single scratch-buffer operation leaves a balanced trace on
every exit path: guard failure and allocation failure allocate nothing,
and after a successful allocation the `finally` releases exactly once. -/
theorem scratchEvents_balanced (e : Engine) (o : NativeOracle)
    (op : ScratchOp) :
    allocCount (scratchEvents e o op) = releaseCount (scratchEvents e o op) := by
  cases op <;>
    simp only [scratchEvents, getBestMove, getLegalMoves, getCurrentFen] <;>
    (repeat' split) <;>
    rfl

/-! ### Claims -/

/-- C1: In any well-formed engine state other than Initialized, every
Call Surface operation (setPosition, getBestMove, makeMove, undoMove,
getLegalMoves, isCheckmate, isStalemate, isInCheck, evaluatePosition,
getCurrentFen) throws the not-initialized error and performs no
native-boundary event: no foreign call is made and native memory is
untouched. -/
theorem c1_not_initialized_guard (e : Engine) (o : NativeOracle)
    (fen move : String) (depth : Int)
    (hwf : e.wf) (h : e.state ≠ .initialized) :
    setPosition e o fen = (.error .notInitialized, []) ∧
    getBestMove e o depth = (.error .notInitialized, []) ∧
    makeMove e o move = (.error .notInitialized, []) ∧
    undoMove e o = (.error .notInitialized, []) ∧
    getLegalMoves e o = (.error .notInitialized, []) ∧
    isCheckmate e o = (.error .notInitialized, []) ∧
    isStalemate e o = (.error .notInitialized, []) ∧
    isInCheck e o = (.error .notInitialized, []) ∧
    evaluatePosition e o = (.error .notInitialized, []) ∧
    getCurrentFen e o = (.error .notInitialized, []) := by
  have hni : e.isInitialized = false := by
    cases hb : e.isInitialized with
    | false => rfl
    | true =>
        obtain ⟨hr, -⟩ := hwf hb
        exact absurd (by simp [Engine.state, hr, hb]) h
  refine ⟨?_, ?_, ?_, ?_, ?_, ?_, ?_, ?_, ?_, ?_⟩ <;>
    simp [setPosition, getBestMove, makeMove, undoMove, getLegalMoves,
      isCheckmate, isStalemate, isInCheck, evaluatePosition, getCurrentFen, hni]

/-- Witness for C1 at the fresh, never-loaded engine. -/
theorem c1_witness :
    eFresh.wf ∧ eFresh.state ≠ .initialized ∧
    setPosition eFresh oZero "fen" = (.error .notInitialized, []) := by
  refine ⟨by decide, by decide, ?_⟩
  exact (c1_not_initialized_guard eFresh oZero "fen" "e2e4" 4 (by decide)
    (by decide)).1

/-- C3: For every sequence of scratch-buffer operations, each step with
arbitrary native responses (success, failure status, allocation failure,
exception thrown during decoding), the number of scratch regions
allocated equals the number released: the arena never leaks and retains
no region across calls. -/
theorem c3_no_leak (e : Engine) (ops : List (ScratchOp × NativeOracle)) :
    allocCount (runSeq e ops) = releaseCount (runSeq e ops) := by
  induction ops with
  | nil => rfl
  | cons p rest ih =>
      obtain ⟨op, o⟩ := p
      simp [runSeq, allocCount_append, releaseCount_append, ih,
        scratchEvents_balanced]

/-- C6: Calling `cleanup` twice in a row equals calling it once — the
second call changes nothing and performs no foreign call; `cleanup` is a
no-op unless the state is Initialized; and from a well-formed Initialized
state both one and two consecutive calls leave the engine in
Loaded-NotInitialized.  The embedded `cleanup` is a total function into
`Engine × List Ev`: it never fails outward. -/
theorem c6_cleanup_idempotent (e : Engine) :
    (cleanup (cleanup e).1).1 = (cleanup e).1 ∧
    (cleanup (cleanup e).1).2 = [] ∧
    (e.wf → e.state ≠ .initialized → cleanup e = (e, [])) ∧
    (e.wf → e.state = .initialized →
      (cleanup e).1.state = .loadedNotInit ∧
      (cleanup (cleanup e).1).1.state = .loadedNotInit) := by
  obtain ⟨r, i, w, m⟩ := e
  cases r <;> cases i <;> cases w <;> cases m <;> decide

/-- Witness for C6 at the initialized engine. -/
theorem c6_witness :
    eInit.wf ∧ eInit.state = .initialized ∧
    (cleanup eInit).1.state = .loadedNotInit ∧
    (cleanup (cleanup eInit).1).1.state = .loadedNotInit := by
  refine ⟨by decide, by decide, ?_, ?_⟩
  · exact ((c6_cleanup_idempotent eInit).2.2.2 (by decide) (by decide)).1
  · exact ((c6_cleanup_idempotent eInit).2.2.2 (by decide) (by decide)).2

/-- C8: From Loaded-NotInitialized, when `chess_init` returns any
nonzero status, `init` returns `false` after exactly one foreign call and
leaves the engine unchanged — in particular the state is still
Loaded-NotInitialized, not Initialized. -/
theorem c8_init_failure (e : Engine) (o : NativeOracle)
    (h : e.state = .loadedNotInit) (hs : o.initStatus ≠ 0) :
    init e o = (.ok false, e, [.call "chess_init"]) ∧
    (init e o).2.1.state = .loadedNotInit := by
  have hr : e.isReady = true := by
    cases hb : e.isReady with
    | true => rfl
    | false => simp [Engine.state, hb] at h
  have heq : init e o = (.ok false, e, [.call "chess_init"]) := by
    simp [init, hr, hs]
  exact ⟨heq, by rw [heq]; simpa using h⟩

/-- Witness for C8 at the loaded engine with a failing native init. -/
theorem c8_witness :
    eLoaded.state = .loadedNotInit ∧ oInitFail.initStatus ≠ 0 ∧
    init eLoaded oInitFail = (.ok false, eLoaded, [.call "chess_init"]) := by
  refine ⟨by decide, by decide, ?_⟩
  exact (c8_init_failure eLoaded oInitFail (by decide) (by decide)).1

/-- Characterization of `getBestMove` under an initialized engine with a
working allocator and decoder. -/
theorem getBestMove_char (e : Engine) (o : NativeOracle) (depth : Int)
    (he : e.isInitialized = true) (hm : o.mallocBest = true)
    (hd : o.decodeOk = true) :
    (getBestMove e o depth).1 =
      if o.bestStatus depth = 0 ∧ o.bestWritten depth ≠ "" ∧
         o.bestWritten depth ≠ "0000"
      then .ok (some (o.bestWritten depth)) else .ok none := by
  by_cases hs : o.bestStatus depth = 0
  · by_cases hw : o.bestWritten depth = ""
    · simp [getBestMove, he, hm, hd, hs, hw]
    · by_cases hz : o.bestWritten depth = "0000"
      · simp [getBestMove, he, hm, hd, hs, hz]
      · simp [getBestMove, he, hm, hd, hs, hw, hz]
  · simp [getBestMove, he, hm, hd, hs]

/-- C2 is false as stated: with status 0 (success) and the empty string
written into the buffer, `getBestMove` returns the absent value although
the native token is not the "0000" sentinel and the status is success;
and with status 0 and a junk token written, it returns the token
verbatim although the token does not match the 4-5 character algebraic
pattern. -/
theorem c2_counterexample :
    ((getBestMove eInit oEmptyBest 4).1 = .ok none ∧
      oEmptyBest.bestStatus 4 = 0 ∧ oEmptyBest.bestWritten 4 ≠ "0000") ∧
    ((getBestMove eInit oJunkBest 4).1 = .ok (some "hello") ∧
      isMoveToken "hello" = false) := by
  exact ⟨⟨rfl, rfl, by decide⟩, rfl, by decide⟩

/-- C2 (amended): when the engine is Initialized and allocation and
decoding are available, `getBestMove` returns the absent value exactly
when the native status is nonzero or the written token is empty or
equals the "0000" sentinel; in every other case it returns the written
token verbatim (so the literal "0000" is never returned, and the result
matches the 4-5 character pattern exactly when the native token does —
the wrapper performs no pattern validation of its own). -/
theorem c2_best_move_amended (e : Engine) (o : NativeOracle) (depth : Int)
    (he : e.isInitialized = true) (hm : o.mallocBest = true)
    (hd : o.decodeOk = true) :
    ((getBestMove e o depth).1 = .ok none ↔
      (o.bestStatus depth ≠ 0 ∨ o.bestWritten depth = "" ∨
       o.bestWritten depth = "0000")) ∧
    (∀ t, (getBestMove e o depth).1 = .ok (some t) →
      t = o.bestWritten depth ∧ t ≠ "" ∧ t ≠ "0000") ∧
    (getBestMove e o depth).1 ≠ .ok (some "0000") ∧
    (o.bestStatus depth = 0 → isMoveToken (o.bestWritten depth) = true →
      (getBestMove e o depth).1 = .ok (some (o.bestWritten depth))) := by
  have hc := getBestMove_char e o depth he hm hd
  by_cases hs : o.bestStatus depth = 0
  · by_cases hw : o.bestWritten depth = ""
    · have hres : (getBestMove e o depth).1 = .ok none := by
        rw [hc]; simp [hw]
      refine ⟨⟨fun _ => Or.inr (Or.inl hw), fun _ => hres⟩, ?_, ?_, ?_⟩
      · intro t ht
        rw [hres] at ht
        simp at ht
      · rw [hres]; simp
      · intro _ hmt
        rw [hw] at hmt
        exact absurd hmt (by decide)
    · by_cases hz : o.bestWritten depth = "0000"
      · have hres : (getBestMove e o depth).1 = .ok none := by
          rw [hc]; simp [hz]
        refine ⟨⟨fun _ => Or.inr (Or.inr hz), fun _ => hres⟩, ?_, ?_, ?_⟩
        · intro t ht
          rw [hres] at ht
          simp at ht
        · rw [hres]; simp
        · intro _ hmt
          rw [hz] at hmt
          exact absurd hmt (by decide)
      · have hres : (getBestMove e o depth).1 = .ok (some (o.bestWritten depth)) := by
          rw [hc]; simp [hs, hw, hz]
        refine ⟨?_, ?_, ?_, fun _ _ => hres⟩
        · rw [hres]
          constructor
          · intro hcon
            simp at hcon
          · rintro (h | h | h)
            · exact absurd hs h
            · exact absurd h hw
            · exact absurd h hz
        · intro t ht
          rw [hres] at ht
          have hbt : o.bestWritten depth = t := by simpa using ht
          subst hbt
          exact ⟨rfl, hw, hz⟩
        · rw [hres]
          simp [hz]
  · have hres : (getBestMove e o depth).1 = .ok none := by
      rw [hc]; simp [hs]
    refine ⟨⟨fun _ => Or.inl hs, fun _ => hres⟩, ?_, ?_, fun h0 => absurd h0 hs⟩
    · intro t ht
      rw [hres] at ht
      simp at ht
    · rw [hres]; simp

/-- Witness for the amended C2: benign responses produce the written
move verbatim. -/
theorem c2_witness :
    eInit.isInitialized = true ∧ oZero.bestStatus 4 = 0 ∧
    isMoveToken (oZero.bestWritten 4) = true ∧
    (getBestMove eInit oZero 4).1 = .ok (some "e2e4") :=
  ⟨rfl, rfl, by decide,
   (c2_best_move_amended eInit oZero 4 rfl rfl rfl).2.2.2 rfl (by decide)⟩

/-- C5: when the engine is Initialized and the native `chess_set_position`
reports failure, `analyzePosition` returns the report whose only content
is the "Invalid FEN position" error, and the only native call issued is
`chess_set_position` — nothing further runs. -/
theorem c5_invalid_fen_short_circuit (e : Engine) (o : NativeOracle)
    (fen : String) (depth : Int)
    (he : e.isInitialized = true) (hs : o.setStatus fen ≠ 0) :
    analyzePosition e o fen depth =
      ({ error := some "Invalid FEN position" }, [.call "chess_set_position"]) := by
  have h1 : setPosition e o fen = (.ok false, [.call "chess_set_position"]) := by
    simp [setPosition, he, hs]
  unfold analyzePosition analyzeRaw
  rw [h1]
  simp [andThen]

/-- Witness for C5 with a rejecting native `chess_set_position`. -/
theorem c5_witness :
    analyzePosition eInit oBadFen "bad fen" 4 =
      ({ error := some "Invalid FEN position" }, [.call "chess_set_position"]) :=
  c5_invalid_fen_short_circuit eInit oBadFen "bad fen" 4 rfl (by decide)

/-- Every token produced by the whitespace split is nonempty. -/
theorem splitMoves_ne_empty {s t : String} (ht : t ∈ splitMoves s) :
    t ≠ "" := by
  have := (List.mem_filter.mp ht).2
  simpa using this

/-- C7: when the engine is Initialized and allocation and decoding are
available, `getLegalMoves` returns the empty sequence whenever the
native count is negative (failure) or the decoded payload is blank; any
sequence it returns contains no empty token (in particular never
`[""]`); and on a nonblank payload it is exactly the whitespace split
with empty tokens filtered out — one fixed separator. -/
theorem c7_legal_moves (e : Engine) (o : NativeOracle)
    (he : e.isInitialized = true) (hm : o.mallocLegal = true)
    (hd : o.decodeOk = true) :
    ((o.legalCount < 0 ∨ trimString o.legalWritten = "") →
      (getLegalMoves e o).1 = .ok []) ∧
    (∀ l, (getLegalMoves e o).1 = .ok l → ∀ t ∈ l, t ≠ "") ∧
    (0 ≤ o.legalCount → trimString o.legalWritten ≠ "" →
      (getLegalMoves e o).1 = .ok (splitMoves (trimString o.legalWritten))) := by
  by_cases hc : o.legalCount < 0
  · have hres : (getLegalMoves e o).1 = .ok [] := by
      simp [getLegalMoves, he, hm, hc]
    refine ⟨fun _ => hres, ?_, fun h0 _ => absurd hc (not_lt.mpr h0)⟩
    intro l hl t ht
    rw [hres] at hl
    obtain rfl : ([] : List String) = l := by simpa using hl
    simp at ht
  · by_cases hw : trimString o.legalWritten = ""
    · have hres : (getLegalMoves e o).1 = .ok [] := by
        simp [getLegalMoves, he, hm, hc, hd, hw]
      refine ⟨fun _ => hres, ?_, fun _ hw2 => absurd hw hw2⟩
      intro l hl t ht
      rw [hres] at hl
      obtain rfl : ([] : List String) = l := by simpa using hl
      simp at ht
    · have hres : (getLegalMoves e o).1 = .ok (splitMoves (trimString o.legalWritten)) := by
        simp [getLegalMoves, he, hm, hc, hd, hw]
      refine ⟨fun hdisj => ?_, ?_, fun _ _ => hres⟩
      · rcases hdisj with hdisj | hdisj
        · exact absurd hdisj hc
        · exact absurd hdisj hw
      · intro l hl t ht
        rw [hres] at hl
        obtain rfl : splitMoves (trimString o.legalWritten) = l := by simpa using hl
        exact splitMoves_ne_empty ht

/-- Witness for C7 on a two-move payload and, by the blank clause, the
failure-count case. -/
theorem c7_witness :
    (getLegalMoves eInit oZero).1 = .ok ["e2e4", "d2d4"] ∧
    (getLegalMoves eInit { oZero with legalCount := -1 }).1 = .ok [] := by
  constructor
  · have h := (c7_legal_moves eInit oZero rfl rfl rfl).2.2 (by decide) (by decide)
    rw [h]
    exact congrArg Except.ok (by decide)
  · exact (c7_legal_moves eInit { oZero with legalCount := -1 } rfl rfl
      rfl).1 (Or.inl (by decide))

/-- C4: `analyzePosition` always returns a structured report.  A report
without an error field is the success report, and whenever the try body
faults (any throw from an underlying Call Surface operation), the
returned report carries that fault's message in its error field instead
of the fault escaping. -/
theorem c4_analyze_never_throws (e : Engine) (o : NativeOracle)
    (fen : String) (depth : Int) :
    ((analyzePosition e o fen depth).1.error = none →
      (analyzePosition e o fen depth).1.success = some true) ∧
    (∀ err t, analyzeRaw e o fen depth = (.error err, t) →
      (analyzePosition e o fen depth).1 = { error := some err.message }) := by
  constructor
  · intro hne
    rcases hraw : analyzeRaw e o fen depth with ⟨r, t⟩
    cases r with
    | error err =>
        have hres : (analyzePosition e o fen depth).1 = { error := some err.message } := by
          unfold analyzePosition
          rw [hraw]
        rw [hres] at hne
        simp at hne
    | ok rep =>
        have hres : (analyzePosition e o fen depth).1 = rep := by
          unfold analyzePosition
          rw [hraw]
        rcases analyzeRaw_ok_shape (show (analyzeRaw e o fen depth).1 = .ok rep by
            rw [hraw]) with hshape | ⟨bm, ev, lm, gs, cf, hshape⟩
        · rw [hres, hshape] at hne
          simp at hne
        · rw [hres, hshape]
  · intro err t hraw
    unfold analyzePosition
    rw [hraw]

/-- Witness for C4: the benign run yields the success report; a run on
an engine that was never initialized yields the error report carrying
the thrown message. -/
theorem c4_witness :
    (analyzePosition eInit oZero "startpos" 4).1.success = some true ∧
    (analyzePosition eFresh oZero "startpos" 4).1 =
      { error := some "Engine not initialized" } :=
  ⟨(c4_analyze_never_throws eInit oZero "startpos" 4).1 rfl,
   (c4_analyze_never_throws eFresh oZero "startpos" 4).2 .notInitialized [] rfl⟩

/-- C9: when `loadModule` fails at any stage (script fetch failure,
missing `ChessEngine` symbol, module instantiation failure, wrapper
setup failure), it returns the failure value `false`, the engine state
is still Unloaded (the ready flag is never set, even when the module
field was already assigned), and no wrapper is usable: every call-surface
operation still throws the not-initialized error with no native call,
and `init` still throws the not-loaded error. -/
theorem c9_load_failure (e : Engine) (oc : LoadOutcome)
    (hwf : e.wf) (h : e.state = .unloaded) (hoc : oc ≠ .ok) :
    (loadModule e oc).1 = false ∧
    (loadModule e oc).2.state = .unloaded ∧
    (loadModule e oc).2.isReady = false ∧
    (∀ o fen, setPosition (loadModule e oc).2 o fen =
      (.error .notInitialized, [])) ∧
    (∀ o, init (loadModule e oc).2 o =
      (.error .notLoaded, (loadModule e oc).2, [])) := by
  have hr : e.isReady = false := by
    cases hb : e.isReady with
    | false => rfl
    | true => cases hbi : e.isInitialized <;> simp [Engine.state, hb, hbi] at h
  have hi : e.isInitialized = false := by
    cases hbi : e.isInitialized with
    | false => rfl
    | true =>
        have h2 := (hwf hbi).1
        rw [hr] at h2
        exact Bool.noConfusion h2
  cases oc with
  | ok => exact absurd rfl hoc
  | scriptFail =>
      refine ⟨rfl, ?_, ?_, fun o2 fen2 => ?_, fun o2 => ?_⟩ <;>
        simp [loadModule, Engine.state, setPosition, init, hr, hi]
  | symbolMissing =>
      refine ⟨rfl, ?_, ?_, fun o2 fen2 => ?_, fun o2 => ?_⟩ <;>
        simp [loadModule, Engine.state, setPosition, init, hr, hi]
  | moduleInitFail =>
      refine ⟨rfl, ?_, ?_, fun o2 fen2 => ?_, fun o2 => ?_⟩ <;>
        simp [loadModule, Engine.state, setPosition, init, hr, hi]
  | wrappersFail =>
      refine ⟨rfl, ?_, ?_, fun o2 fen2 => ?_, fun o2 => ?_⟩ <;>
        simp [loadModule, Engine.state, setPosition, init, hr, hi]

/-- Witness for C9 at the fresh engine with a wrapper-setup failure (the
stage at which the module field was already assigned). -/
theorem c9_witness :
    eFresh.wf ∧ eFresh.state = .unloaded ∧
    (loadModule eFresh .wrappersFail).1 = false ∧
    (loadModule eFresh .wrappersFail).2.state = .unloaded := by
  refine ⟨by decide, by decide, ?_, ?_⟩
  · exact (c9_load_failure eFresh .wrappersFail (by decide) (by decide)
      (by decide)).1
  · exact (c9_load_failure eFresh .wrappersFail (by decide) (by decide)
      (by decide)).2.1

/-- C10: every report `analyzePosition` returns has exactly one of two
shapes: a success report with `success = true`, `moveCount` equal to the
length of its legal-move sequence and `depth` equal to the requested
depth, or a failure report whose only content is an error message — no
success flag and no other field. -/
theorem c10_report_shape (e : Engine) (o : NativeOracle) (fen : String)
    (d : Int) :
    ((analyzePosition e o fen d).1.error = none ∧
     (analyzePosition e o fen d).1.success = some true ∧
     (analyzePosition e o fen d).1.depth = some d ∧
     ∃ l, (analyzePosition e o fen d).1.legalMoves = some l ∧
          (analyzePosition e o fen d).1.moveCount = some l.length) ∨
    ((analyzePosition e o fen d).1.error ≠ none ∧
     (analyzePosition e o fen d).1.success = none ∧
     (analyzePosition e o fen d).1.bestMove = none ∧
     (analyzePosition e o fen d).1.evaluation = none ∧
     (analyzePosition e o fen d).1.legalMoves = none ∧
     (analyzePosition e o fen d).1.moveCount = none ∧
     (analyzePosition e o fen d).1.gameState = none ∧
     (analyzePosition e o fen d).1.depth = none ∧
     (analyzePosition e o fen d).1.fen = none) := by
  rcases hraw : analyzeRaw e o fen d with ⟨r, t⟩
  cases r with
  | error err =>
      right
      have hres : (analyzePosition e o fen d).1 = { error := some err.message } := by
        unfold analyzePosition
        rw [hraw]
      rw [hres]
      simp
  | ok rep =>
      have hres : (analyzePosition e o fen d).1 = rep := by
        unfold analyzePosition
        rw [hraw]
      rcases analyzeRaw_ok_shape (show (analyzeRaw e o fen d).1 = .ok rep by
          rw [hraw]) with hshape | ⟨bm, ev, lm, gs, cf, hshape⟩
      · right
        rw [hres, hshape]
        simp
      · left
        rw [hres, hshape]
        exact ⟨rfl, rfl, rfl, lm, rfl, rfl⟩

end ChessEngineWASM
